import Mathlib

/-!
Verification development for the VS Code extension stats pipeline.

The repository has two generations of the same pipeline:
the HTTP application (src/app/main.py, src/app/fetch_endpoint.py,
src/app/database.py) and a standalone batch ingestor (src/ingest.py),
plus an older copy of the fetch endpoint (src/fetch_endpoint.py) that is
line-for-line identical in the parts modelled here.

Modelling conventions (shallow embedding):
* Python datetimes are records of a wall-clock reading (seconds, an
  order-preserving linearization of Y-M-D-H-M-S) plus an optional UTC
  offset (seconds); a timezone is a pair of offset functions
  (offset chosen for a local reading, offset at a UTC instant), so that
  the DST-aware ZoneInfo "America/Los_Angeles" can be quantified over
  while the fixed offset timezone(timedelta(hours=-8)) is concrete.
* JSON payload values are a small value type; numbers are integers
  (no claim performs arithmetic on record fields).
* The database (src/app/database.py) is modelled as an always-available
  pure service: the stats table is a list of rows, INSERT .. ON CONFLICT
  DO NOTHING either appends a row or leaves the table unchanged, and
  rowcount reports 1 or 0 accordingly.  TIMESTAMPTZ comparisons are by
  absolute instant, as the comment in check_timestamp_exists notes.
* File metadata (st_mtime) is always available; the files visible to an
  operation are passed in as an explicit directory listing.
-/

namespace VSStats

/-! ## Time model -/

/-- A timezone: offset (seconds east of UTC) chosen for a local wall
reading, and offset at a UTC instant.  A fixed-offset zone uses the same
constant for both. -/
structure Zone where
  fromLocal : Int → Int
  fromInstant : Int → Int

def fixedZone (off : Int) : Zone := ⟨fun _ => off, fun _ => off⟩

/-- Offset of the fixed PST zone used by the fetch endpoint:
timezone(timedelta(hours=-8)), i.e. -8h in seconds. -/
def pstOffset : Int := -28800

/-- PST = timezone(timedelta(hours=-8)) from src/app/fetch_endpoint.py. -/
def PST : Zone := fixedZone pstOffset

/-- A Python datetime: naive (off = none) or aware (off = some o where o
is the resolved utcoffset in seconds). -/
structure DateTime where
  wall : Int
  off : Option Int
deriving DecidableEq, Repr

/-- The absolute instant an aware datetime denotes; none for naive. -/
def DateTime.instant (d : DateTime) : Option Int :=
  match d.off with
  | some o => some (d.wall - o)
  | none => none

/-- dt.astimezone(z) for an aware datetime with wall w and offset o:
the same instant re-expressed in zone z. -/
def astimezonePy (z : Zone) (w o : Int) : DateTime :=
  ⟨(w - o) + z.fromInstant (w - o), some (z.fromInstant (w - o))⟩

/-- dt.replace(tzinfo=z) for a naive datetime with wall w: the wall
reading is kept and the zone is attached (offset resolved from the local
reading). -/
def replacePy (z : Zone) (w : Int) : DateTime :=
  ⟨w, some (z.fromLocal w)⟩

/-- datetime.fromtimestamp(t, tz=z) and datetime.now(z): the instant t
expressed in zone z. -/
def fromInstantIn (z : Zone) (t : Int) : DateTime :=
  ⟨t + z.fromInstant t, some (z.fromInstant t)⟩

/-! ## JSON payload model -/

/-- JSON values appearing in extension-record fields. -/
inductive JVal
  | jnull
  | jbool (b : Bool)
  | jint (n : Int)
  | jstr (s : String)
  | jstrlist (xs : List String)
deriving DecidableEq, Repr

/-- An extension record as read from JSON: a Python dict, modelled as an
association list (first binding wins, as in dict lookup). -/
abbrev ExtRec := List (String × JVal)

/-- Python dict.get(k, dflt). -/
def pyGet (d : ExtRec) (k : String) (dflt : JVal) : JVal :=
  match d.find? (fun kv => kv.fst == k) with
  | some kv => kv.snd
  | none => dflt

/-! ## Snapshot file content model -/

/-- The created_at field of a snapshot object, as seen by the parsers:
absent/falsy, present but rejected by datetime.fromisoformat, or parsed
to a wall reading with an optional explicit UTC offset. -/
inductive CreatedAt
  | missing
  | unparsable
  | parsed (wall : Int) (off : Option Int)
deriving DecidableEq, Repr

/-- A successfully loaded JSON document: either a bare top-level list of
records, or an object with a created_at field and optionally a
data.items record list. -/
inductive JsonDoc
  | topList (items : List ExtRec)
  | obj (createdAt : CreatedAt) (items : Option (List ExtRec))
deriving DecidableEq, Repr

/-- Content of a snapshot file: json.load either fails (carrying the
JSONDecodeError components msg/lineno/colno/pos) or yields a document. -/
inductive FileContent
  | invalidJson (emsg : String) (lineno colno charpos : Nat)
  | loaded (doc : JsonDoc)
deriving DecidableEq, Repr

/-- A snapshot file in the data directory: name, content, and
last-modified time (st_mtime, as an instant). -/
structure SnapFile where
  name : String
  content : FileContent
  mtime : Int
deriving DecidableEq, Repr

/-- Lexicographic-by-code-point string comparison (Python string
ordering); list-based so the kernel can evaluate it. -/
def charListLe : List Char → List Char → Bool
  | [], _ => true
  | _ :: _, [] => false
  | a :: as, b :: bs =>
    if a.toNat < b.toNat then true
    else if b.toNat < a.toNat then false
    else charListLe as bs

def strLe (a b : String) : Bool := charListLe a.toList b.toList

def strEndsWith (s suf : String) : Bool :=
  let a := s.toList
  let b := suf.toList
  b == a.drop (a.length - b.length)

def strStartsWith (s pre : String) : Bool :=
  let a := s.toList
  let b := pre.toList
  b == a.take b.length

/-- Path(p).stem for the *.json files produced by glob. -/
def stem (s : String) : String :=
  if strEndsWith s ".json" then String.mk (s.toList.take (s.toList.length - 5)) else s

/-! ## Python exception model -/

inductive PyExc
  | valueError (msg : String)
  | attributeError (msg : String)
deriving DecidableEq, Repr

def PyExc.message : PyExc → String
  | .valueError m => m
  | .attributeError m => m

/-- str() of a json.JSONDecodeError, which CPython renders as
"msg: line L column C (char P)". -/
def jsonDecodeMsg (emsg : String) (lineno colno charpos : Nat) : String :=
  emsg ++ ": line " ++ toString lineno ++ " column " ++ toString colno ++
    " (char " ++ toString charpos ++ ")"

/-- str() of the AttributeError raised by list.get (quotes elided). -/
def listGetAttrMsg : String := "list object has no attribute get"

/-- Message of the wrapped ValueError when created_at is absent
(src/app/main.py parse_timestamp_from_json). -/
def noCreatedAtMsg : String :=
  "Could not parse timestamp from created_at field: No created_at field found in JSON data"

/-- Message of the wrapped ValueError when created_at is rejected by
fromisoformat (the embedded repr of the string is elided). -/
def badIsoMsg : String :=
  "Could not parse timestamp from created_at field: Invalid isoformat string"

/-! ## Filename timestamp parsing (strptime "%Y-%m-%d-%H-%M-%S") -/

def natOfDigits (cs : List Char) : Nat :=
  cs.foldl (fun a c => a * 10 + (c.toNat - 48)) 0

def allDigits (cs : List Char) : Bool :=
  match cs with
  | [] => false
  | _ => cs.all Char.isDigit

def isLeapYear (y : Nat) : Bool :=
  (y % 4 == 0 && y % 100 != 0) || (y % 400 == 0)

def daysInMonth (y m : Nat) : Nat :=
  if m == 2 then (if isLeapYear y then 29 else 28)
  else if m == 4 || m == 6 || m == 9 || m == 11 then 30
  else 31

/-- Days since 1970-01-01 of a civil date (proleptic Gregorian),
following the standard era-based algorithm; inputs satisfy y >= 1. -/
def daysFromCivil (y m d : Nat) : Int :=
  let yAdj : Int := if m ≤ 2 then (y : Int) - 1 else (y : Int)
  let era : Int := yAdj / 400
  let yoe : Int := yAdj - era * 400
  let mp : Int := if m > 2 then (m : Int) - 3 else (m : Int) + 9
  let doy : Int := (153 * mp + 2) / 5 + (d : Int) - 1
  let doe : Int := yoe * 365 + yoe / 4 - yoe / 100 + doy
  era * 146097 + doe - 719468

/-- str.split("-") on a character list (accumulator-based so the kernel
can evaluate it). -/
def splitOnDashAux : List Char → List Char → List (List Char)
  | acc, [] => [acc.reverse]
  | acc, c :: cs =>
    if c == '-' then acc.reverse :: splitOnDashAux [] cs
    else splitOnDashAux (c :: acc) cs

def splitOnDash (cs : List Char) : List (List Char) :=
  splitOnDashAux [] cs

/-- datetime.strptime(stem, "%Y-%m-%d-%H-%M-%S") as a wall-clock
reading in seconds: %Y takes exactly four digits, the other fields one
or two digits, and the datetime constructor enforces the field ranges
(including day-of-month against the month length). -/
def parseStemTimestamp (s : String) : Option Int :=
  match splitOnDash s.toList with
  | [ys, ms, ds, hs, mins, ss] =>
    if allDigits ys && ys.length == 4 &&
       allDigits ms && ms.length ≤ 2 &&
       allDigits ds && ds.length ≤ 2 &&
       allDigits hs && hs.length ≤ 2 &&
       allDigits mins && mins.length ≤ 2 &&
       allDigits ss && ss.length ≤ 2 then
      let y := natOfDigits ys
      let m := natOfDigits ms
      let d := natOfDigits ds
      let h := natOfDigits hs
      let mi := natOfDigits mins
      let sec := natOfDigits ss
      if 1 ≤ y && 1 ≤ m && m ≤ 12 && 1 ≤ d && d ≤ daysInMonth y m &&
         h ≤ 23 && mi ≤ 59 && sec ≤ 59 then
        some (daysFromCivil y m d * 86400 + (h : Int) * 3600 + (mi : Int) * 60 + (sec : Int))
      else none
    else none
  | _ => none

/-! ## The three timestamp extractors -/

namespace App

/-- parse_timestamp_from_json from src/app/main.py (strict path):
raises ValueError when created_at is missing or unparsable; an aware
parsed value is converted to the Pacific zone, a naive one is tagged
with it.  Calling .get on a bare list raises AttributeError, which this
function does not catch. -/
def parse_timestamp_from_json (pacific : Zone) (doc : JsonDoc) : Except PyExc DateTime :=
  match doc with
  | .topList _ => .error (.attributeError listGetAttrMsg)
  | .obj ca _ =>
    match ca with
    | .missing => .error (.valueError noCreatedAtMsg)
    | .unparsable => .error (.valueError badIsoMsg)
    | .parsed w o =>
      match o with
      | some off => .ok (astimezonePy pacific w off)
      | none => .ok (replacePy pacific w)

end App

namespace IngestScript

/-- parse_timestamp_from_json from src/ingest.py: same conversion logic
but missing or unparsable created_at silently falls back to
datetime.now(PACIFIC_TZ); only the AttributeError on a bare list
escapes. -/
def parse_timestamp_from_json (pacific : Zone) (now : Int) (doc : JsonDoc) :
    Except PyExc DateTime :=
  match doc with
  | .topList _ => .error (.attributeError listGetAttrMsg)
  | .obj ca _ =>
    match ca with
    | .missing => .ok (fromInstantIn pacific now)
    | .unparsable => .ok (fromInstantIn pacific now)
    | .parsed w o =>
      match o with
      | some off => .ok (astimezonePy pacific w off)
      | none => .ok (replacePy pacific w)

end IngestScript

/-- parse_json_file_timestamp from src/app/fetch_endpoint.py (lenient
path): never raises.  A parsed created_at is returned unchanged (naive
or with its original offset); a missing created_at falls back to the
filename pattern tagged with fixed PST, then to st_mtime in fixed PST;
every other failure (bad JSON, bare list, bad isoformat string) falls
back to st_mtime in fixed PST. -/
def parse_json_file_timestamp (f : SnapFile) : DateTime :=
  match f.content with
  | .invalidJson _ _ _ _ => fromInstantIn PST f.mtime
  | .loaded (.topList _) => fromInstantIn PST f.mtime
  | .loaded (.obj ca _) =>
    match ca with
    | .missing =>
      match parseStemTimestamp (stem f.name) with
      | some w => replacePy PST w
      | none => fromInstantIn PST f.mtime
    | .unparsable => fromInstantIn PST f.mtime
    | .parsed w o => ⟨w, o⟩

/-! ## Database model (src/app/database.py, stats table) -/

/-- A row of the extension_stats table.  Column values are the JSON
values the insert parameters evaluate to; captured_at is the (always
aware) timestamp passed as the final parameter. -/
structure Row where
  extension_id : JVal
  rname : JVal
  publisher : JVal
  description : JVal
  version : JVal
  install_count : JVal
  rating : JVal
  rating_count : JVal
  tags : JVal
  categories : JVal
  captured_at : DateTime
deriving DecidableEq, Repr

abbrev Table := List Row

/-- TIMESTAMPTZ equality: both sides are converted to UTC, i.e. aware
datetimes compare by absolute instant. -/
def tsEq (a b : DateTime) : Bool :=
  match a.instant, b.instant with
  | some x, some y => x == y
  | none, none => a.wall == b.wall
  | _, _ => false

/-- The row the 11 insert parameters build from one extension record
(src/ingest.py lines 103-121 and src/app/main.py lines 408-427: the
same .get chains with the same defaults). -/
def mkRow (ext : ExtRec) (captured : DateTime) : Row where
  extension_id := pyGet ext "extension_id" (pyGet ext "id" (.jstr ""))
  rname := pyGet ext "name" (.jstr "")
  publisher := pyGet ext "publisher" (.jstr "")
  description := pyGet ext "description" (.jstr "")
  version := pyGet ext "version" (.jstr "")
  install_count := pyGet ext "install_count" (pyGet ext "installs" (.jint 0))
  rating := pyGet ext "rating" .jnull
  rating_count := pyGet ext "rating_count" (.jint 0)
  tags := pyGet ext "tags" (.jstrlist [])
  categories := pyGet ext "categories" (.jstrlist [])
  captured_at := captured

/-- Whether inserting r into t hits the unique constraint on
(extension_id, captured_at). -/
def rowConflicts (t : Table) (r : Row) : Bool :=
  t.any (fun q => q.extension_id == r.extension_id && tsEq q.captured_at r.captured_at)

/-- INSERT .. ON CONFLICT (extension_id, captured_at) DO NOTHING:
returns the new table and the statement rowcount (1 if a row was
inserted, 0 if the conflict absorbed it). -/
def insertOnConflict (t : Table) (r : Row) : Table × Nat :=
  if rowConflicts t r then (t, 0) else (t ++ [r], 1)

/-- check_timestamp_exists from src/app/database.py:
SELECT COUNT(*) .. WHERE captured_at = %s, reported as count > 0. -/
def check_timestamp_exists (t : Table) (ts : DateTime) : Bool :=
  t.any (fun q => tsEq q.captured_at ts)

/-- get_latest_db_timestamp from src/app/fetch_endpoint.py:
SELECT MAX(captured_at); a TIMESTAMPTZ is an absolute instant, so the
maximum is over instants, none for the empty table. -/
def get_latest_db_timestamp (t : Table) : Option Int :=
  t.foldl (fun acc q =>
    match q.captured_at.instant with
    | some i =>
      match acc with
      | some m => some (max m i)
      | none => some i
    | none => acc) none

/-! ## Batch insertion -/

/-- Fuel-indexed batching; the fuel (initially the list length) only
serves structural termination and is always sufficient, so the 0-fuel
case with a nonempty list is unreachable. -/
def chunksOfAux (n : Nat) : Nat → List α → List (List α)
  | _, [] => []
  | 0, l => [l]
  | fuel + 1, x :: xs =>
    (x :: List.take (n - 1) xs) :: chunksOfAux n fuel (List.drop (n - 1) xs)

/-- The batches produced by the loop for i in range(0, len(l), n) slicing l[i:i+n]
(n = BATCH_SIZE = 500 at the call sites). -/
def chunksOf (n : Nat) (l : List α) : List (List α) :=
  chunksOfAux n l.length l

/-- One insert in src/app/main.py process_json_file_async: rowcount is
accumulated, so conflicts contribute 0. -/
def insertStepAsync (captured : DateTime) (acc : Table × Nat) (ext : ExtRec) : Table × Nat :=
  let r := insertOnConflict acc.1 (mkRow ext captured)
  (r.1, acc.2 + r.2)

/-- One insert in src/ingest.py process_json_file: rows_inserted is
incremented after every successfully executed statement, so conflicts
also contribute 1. -/
def insertStepSync (captured : DateTime) (acc : Table × Nat) (ext : ExtRec) : Table × Nat :=
  let r := insertOnConflict acc.1 (mkRow ext captured)
  (r.1, acc.2 + 1)

/-- The batched insert loop of process_json_file_async. -/
def insertExtensionsAsync (captured : DateTime) (db : Table) (exts : List ExtRec) :
    Table × Nat :=
  (chunksOf 500 exts).foldl
    (fun acc batch => batch.foldl (insertStepAsync captured) acc) (db, 0)

/-- The batched insert loop of src/ingest.py process_json_file. -/
def insertExtensionsSync (captured : DateTime) (db : Table) (exts : List ExtRec) :
    Table × Nat :=
  (chunksOf 500 exts).foldl
    (fun acc batch => batch.foldl (insertStepSync captured) acc) (db, 0)

namespace App

/-- process_json_file_async from src/app/main.py: load, strict
timestamp, extract data.items or a bare list, insert in batches,
return (rows_inserted, captured_at).  Every internal failure is
re-raised as a ValueError with a fixed prefix.  The bare-list branch is
unreachable because the timestamp extraction has already raised
AttributeError on a list; it is translated nonetheless. -/
def process_json_file_async (pacific : Zone) (f : SnapFile) (db : Table) :
    Except PyExc (Nat × DateTime × Table) :=
  match f.content with
  | .invalidJson e l c p =>
    .error (.valueError ("Error parsing JSON file: " ++ jsonDecodeMsg e l c p))
  | .loaded doc =>
    match parse_timestamp_from_json pacific doc with
    | .error e => .error (.valueError ("Error processing file: " ++ e.message))
    | .ok captured =>
      match doc with
      | .obj _ (some items) =>
        let r := insertExtensionsAsync captured db items
        .ok (r.2, captured, r.1)
      | .obj _ none =>
        .error (.valueError "Error processing file: JSON does not contain expected data structure")
      | .topList items =>
        let r := insertExtensionsAsync captured db items
        .ok (r.2, captured, r.1)

end App

namespace IngestScript

/-- process_json_file from src/ingest.py: every failure (bad JSON,
AttributeError from a bare list, unexpected structure) is caught and
reported as 0 rows with the table unchanged; otherwise the batched
insert runs and the count of executed statements is returned.  The
bare-list branch is unreachable (the timestamp extraction raises
AttributeError first) but is translated nonetheless. -/
def process_json_file (pacific : Zone) (now : Int) (f : SnapFile) (db : Table) :
    Nat × Table :=
  match f.content with
  | .invalidJson _ _ _ _ => (0, db)
  | .loaded doc =>
    match parse_timestamp_from_json pacific now doc with
    | .error _ => (0, db)
    | .ok captured =>
      match doc with
      | .obj _ (some items) =>
        let r := insertExtensionsSync captured db items
        (r.2, r.1)
      | .obj _ none => (0, db)
      | .topList items =>
        let r := insertExtensionsSync captured db items
        (r.2, r.1)

end IngestScript

/-! ## Directory listing order (sorted(glob.glob(..))) -/

def insertSorted (f : SnapFile) : List SnapFile → List SnapFile
  | [] => [f]
  | g :: gs => if strLe f.name g.name then f :: g :: gs else g :: insertSorted f gs

/-- sorted(glob.glob(dir/"*.json")): within one directory the paths sort
by filename. -/
def sortByName (fs : List SnapFile) : List SnapFile :=
  fs.foldr insertSorted []

/-! ## Unprocessed-file resolver (src/app/fetch_endpoint.py) -/

/-- The per-file decision of the loop in get_unprocessed_json_files:
skip the sentinel name, skip archived names, and when a latest database
timestamp exists, skip files whose lenient timestamp is <= it.
Comparing a naive lenient timestamp with the aware database timestamp
raises TypeError, which the loop catches and then keeps the file. -/
def keepFile (processedNames : List String) (latest : Option Int) (f : SnapFile) : Bool :=
  if f.name == "last_fetched.json" then false
  else if processedNames.contains f.name then false
  else
    match latest with
    | none => true
    | some latestInstant =>
      let ts := parse_json_file_timestamp f
      match ts.off with
      | none => true
      | some o => decide (latestInstant < ts.wall - o)

/-- get_unprocessed_json_files: the names of the sorted candidate files
that survive the per-file decision, in order. -/
def get_unprocessed_json_files (fs : List SnapFile) (processedNames : List String)
    (latest : Option Int) : List String :=
  ((sortByName fs).filter (keepFile processedNames latest)).map (fun f => f.name)

/-! ## Standalone batch ingestor main loop (src/ingest.py main) -/

structure BatchState where
  dataFiles : List SnapFile
  processedNames : List String
  db : Table
  totalRows : Nat
  processedFiles : Nat
deriving DecidableEq, Repr

namespace IngestScript

/-- archive_processed_file: shutil.move of the file from the data
directory into processed_json. -/
def archive_processed_file (s : BatchState) (nm : String) : BatchState :=
  { s with
    dataFiles := s.dataFiles.filter (fun g => g.name ≠ nm)
    processedNames := s.processedNames ++ [nm] }

/-- One iteration of the loop in main(): process the file, accumulate
the returned row count, count the file as processed, and archive it
unconditionally. -/
def main_step (pacific : Zone) (now : Int) (s : BatchState) (f : SnapFile) : BatchState :=
  let r := process_json_file pacific now f s.db
  archive_processed_file
    { s with db := r.2, totalRows := s.totalRows + r.1,
             processedFiles := s.processedFiles + 1 } f.name

/-- main() from src/ingest.py: iterate the sorted *.json files of the
data directory, processing and archiving each one. -/
def main_run (pacific : Zone) (now : Int) (files : List SnapFile)
    (processedNames : List String) (db : Table) : BatchState :=
  (sortByName files).foldl (main_step pacific now)
    ⟨files, processedNames, db, 0, 0⟩

end IngestScript

/-! ## Client-key validation (uuid.UUID + allow-list membership) -/

/-- Fuel-indexed removal of pattern occurrences; the fuel (initially
the list length) only serves structural termination and is always
sufficient, so the 0-fuel case with a nonempty list is unreachable. -/
def removeSubAux (pat : List Char) : Nat → List Char → List Char
  | _, [] => []
  | 0, l => l
  | fuel + 1, c :: cs =>
    if 0 < pat.length ∧ List.take pat.length (c :: cs) = pat then
      removeSubAux pat fuel (List.drop pat.length (c :: cs))
    else
      c :: removeSubAux pat fuel cs

/-- Removes every left-to-right non-overlapping occurrence of pat, as
str.replace(pat, "") does. -/
def removeSub (pat : List Char) (cs : List Char) : List Char :=
  removeSubAux pat cs.length cs

/-- str.strip(set): remove leading and trailing characters drawn from
the set. -/
def stripSet (set : List Char) (cs : List Char) : List Char :=
  ((cs.dropWhile (fun c => set.contains c)).reverse.dropWhile
    (fun c => set.contains c)).reverse

def isPyWS (c : Char) : Bool :=
  c == ' ' || c == '\t' || c == '\n' || c == '\r' || c == '\x0b' || c == '\x0c'

def isHexDigitCh (c : Char) : Bool :=
  c.isDigit || ('a' ≤ c && c ≤ 'f') || ('A' ≤ c && c ≤ 'F')

/-- Continuation of a hexadecimal digit run after at least one digit:
single underscores are permitted between digits. -/
def hexRunTail : List Char → Bool
  | [] => true
  | '_' :: r =>
    match r with
    | d :: r2 => isHexDigitCh d && hexRunTail r2
    | [] => false
  | d :: r => isHexDigitCh d && hexRunTail r

/-- A nonempty hexadecimal digit run with single underscores between
digits. -/
def hexRun : List Char → Bool
  | [] => false
  | d :: r => isHexDigitCh d && hexRunTail r

/-- The digit part of int(s, 16) after sign stripping: an optional
0x/0X prefix (an underscore may directly follow the prefix), then a
digit run. -/
def hexToken : List Char → Bool
  | '0' :: 'x' :: r =>
    (match r with
     | '_' :: r2 => hexRun r2
     | _ => hexRun r)
  | '0' :: 'X' :: r =>
    (match r with
     | '_' :: r2 => hexRun r2
     | _ => hexRun r)
  | r => hexRun r

/-- Whether int(s, 16) accepts the 32-character candidate and yields a
value uuid.UUID accepts (0 <= value < 2^128; at most 32 hex digits can
never exceed the bound, and a minus sign cannot occur because every
hyphen was removed earlier, so only validity matters). -/
def uuidIntOk (cs0 : List Char) : Bool :=
  let cs := (cs0.dropWhile isPyWS).reverse.dropWhile isPyWS |>.reverse
  match cs with
  | '+' :: r => hexToken r
  | r => hexToken r

/-- The canonicalization uuid.UUID applies to its hex argument:
remove "urn:" and "uuid:", strip braces from the ends, remove
hyphens. -/
def uuidCanon (key : String) : List Char :=
  removeSub ['-']
    (stripSet ['\x7b', '\x7d']
      (removeSub "uuid:".toList (removeSub "urn:".toList key.toList)))

/-- uuid.UUID(key): succeeds when the canonical form has exactly 32
characters and int(.., 16) accepts it. -/
def uuid_UUID (key : String) : Except Unit (List Char) :=
  let cs := uuidCanon key
  if cs.length == 32 && uuidIntOk cs then .ok cs else .error ()

/-- Whether uuid.UUID(key) parses. -/
def pyUUIDok (key : String) : Bool :=
  (uuid_UUID key).toBool

/-- The shipped allow-list from src/config.py. -/
def VALID_CLIENT_KEYS : List String :=
  ["550e8400-e29b-41d4-a716-446655440000"]

/-- validate_client_key from src/app/fetch_endpoint.py (identical in
src/fetch_endpoint.py): parse as UUID, then exact membership in the
configured allow-list; a ValueError from parsing yields False.  The
allow-list is a parameter because it is deployment configuration. -/
def validate_client_key (keys : List String) (key : String) : Bool :=
  match uuid_UUID key with
  | .ok _ => keys.contains key
  | .error _ => false

/-! ## Sync orchestrator (src/app/main.py auto_sync_files) -/

/-- What the processing loop does with one unprocessed filename. -/
inductive FileOutcome
  | skipped
  | processedOk (n : Nat)
  | failedWith (msg : String)
deriving DecidableEq, Repr

namespace App

/-- The body of the processing loop in auto_sync_files for one
filename: a missing file fails with "File not found"; a json.load
failure, timestamp ValueError or AttributeError fails with str(e); a
timestamp already present in the table is skipped with no counters
touched; otherwise process_json_file_async runs, its ValueError (the
unexpected-structure case) failing the file. -/
def fileAction (pacific : Zone) (fs : List SnapFile) (db : Table) (filename : String) :
    FileOutcome × Table :=
  match fs.find? (fun g => g.name == filename) with
  | none => (.failedWith "File not found", db)
  | some f =>
    match f.content with
    | .invalidJson e l c p => (.failedWith (jsonDecodeMsg e l c p), db)
    | .loaded doc =>
      match parse_timestamp_from_json pacific doc with
      | .error e => (.failedWith e.message, db)
      | .ok captured =>
        if check_timestamp_exists db captured then (.skipped, db)
        else
          match process_json_file_async pacific f db with
          | .ok (n, _, db2) => (.processedOk n, db2)
          | .error e => (.failedWith e.message, db)

/-- The loop accumulator of auto_sync_files:
(files_processed, files_failed, total_records, failed_files, table). -/
abbrev SyncAcc := Nat × Nat × Nat × List (String × String) × Table

def syncLoopStep (pacific : Zone) (fs : List SnapFile) (acc : SyncAcc)
    (filename : String) : SyncAcc :=
  let (p, fl, tot, ff, db) := acc
  match fileAction pacific fs db filename with
  | (.skipped, db2) => (p, fl, tot, ff, db2)
  | (.processedOk n, db2) => (p + 1, fl, tot + n, ff, db2)
  | (.failedWith m, db2) => (p, fl + 1, tot, ff ++ [(filename, m)], db2)

end App

/-- The JSON summary auto_sync_files returns (the fields the claims
talk about; timestamp and latest_db_record rendering omitted). -/
structure SyncSummary where
  status : String
  files_found : Nat
  files_processed : Nat
  files_failed : Nat
  total_records : Nat
  dry_run : Bool
  msg : String
  files_to_process : Option (List String)
  failed_files : Option (List (String × String))
deriving DecidableEq, Repr

inductive SyncResult
  | unauthorized
  | ok (s : SyncSummary)
deriving DecidableEq, Repr

/-- The outcome classification of auto_sync_files:
success when nothing failed, partial when something was processed and
something failed, error when something failed and nothing was
processed. -/
def syncStatusOf (p fl : Nat) : String :=
  if 0 < fl then (if 0 < p then "partial" else "error") else "success"

/-- The summary message auto_sync_files renders from the counters. -/
def syncMsgOf (p fl : Nat) : String :=
  if 0 < fl then
    (if 0 < p then
      "Processed " ++ toString p ++ " files, " ++ toString fl ++ " failed"
    else "All " ++ toString fl ++ " files failed to process")
  else "Successfully processed " ++ toString p ++ " files"

namespace App

/-- auto_sync_files from src/app/main.py: validate the key, discover
unprocessed files, short-circuit on the empty list, report without side
effects on dryrun == 1, otherwise process each file and classify the
outcome (success / partial / error), attaching failed_files when any
file failed. -/
def auto_sync_files (pacific : Zone) (keys : List String) (key : String) (dryrun : Int)
    (fs : List SnapFile) (processedNames : List String) (db : Table) :
    SyncResult × Table :=
  if validate_client_key keys key = false then (.unauthorized, db)
  else
    let latest := get_latest_db_timestamp db
    let unprocessed := get_unprocessed_json_files fs processedNames latest
    let base : SyncSummary :=
      { status := "success", files_found := unprocessed.length,
        files_processed := 0, files_failed := 0, total_records := 0,
        dry_run := dryrun ≠ 0, msg := "", files_to_process := none,
        failed_files := none }
    if unprocessed.isEmpty then
      (.ok { base with msg := "No unprocessed files found" }, db)
    else if dryrun == 1 then
      (.ok { base with
               msg := "Would process " ++ toString unprocessed.length ++ " files"
               files_to_process := some unprocessed }, db)
    else
      let r := unprocessed.foldl (syncLoopStep pacific fs) (0, 0, 0, [], db)
      let (p, fl, tot, ff, db2) := r
      (.ok { base with
               status := syncStatusOf p fl
               files_processed := p
               files_failed := fl
               total_records := tot
               msg := syncMsgOf p fl
               failed_files := if ff.isEmpty then none else some ff }, db2)

end App

namespace App

/-- Specification-side view of one sync run: the per-file outcomes in
processing order, threading the table exactly as the loop does. -/
def syncOutcomes (pacific : Zone) (fs : List SnapFile) :
    Table → List String → List (String × FileOutcome) × Table
  | db, [] => ([], db)
  | db, nm :: rest =>
    let r := fileAction pacific fs db nm
    let rest2 := syncOutcomes pacific fs r.2 rest
    ((nm, r.1) :: rest2.1, rest2.2)

end App

def outcomeProcessed : FileOutcome → Bool
  | .processedOk _ => true
  | _ => false

def outcomeFailed : FileOutcome → Bool
  | .failedWith _ => true
  | _ => false

def outcomeSkipped : FileOutcome → Bool
  | .skipped => true
  | _ => false

def countProcessed : List (String × FileOutcome) → Nat
  | [] => 0
  | x :: xs => (if outcomeProcessed x.2 then 1 else 0) + countProcessed xs

def countFailed : List (String × FileOutcome) → Nat
  | [] => 0
  | x :: xs => (if outcomeFailed x.2 then 1 else 0) + countFailed xs

def countSkipped : List (String × FileOutcome) → Nat
  | [] => 0
  | x :: xs => (if outcomeSkipped x.2 then 1 else 0) + countSkipped xs

def sumRecords : List (String × FileOutcome) → Nat
  | [] => 0
  | x :: xs =>
    (match x.2 with
     | .processedOk n => n
     | _ => 0) + sumRecords xs

def failedPairs : List (String × FileOutcome) → List (String × String)
  | [] => []
  | x :: xs =>
    match x.2 with
    | .failedWith m => (x.1, m) :: failedPairs xs
    | _ => failedPairs xs

/-- Specification-side reading of the resolver's timestamp test:
the lenient timestamp is aware and strictly newer than the latest
database instant. -/
def latestLt (latest : Option Int) (ts : DateTime) : Bool :=
  match latest, ts.off with
  | some latestInstant, some o => decide (latestInstant < ts.wall - o)
  | _, _ => false

/-! ## Single-file ingest endpoint (src/app/main.py /api/ingest) -/

/-- The response of the /api/ingest endpoint (the fields the claims
talk about). -/
structure IngestResponse where
  http : Nat
  status : String
  records_inserted : Option Nat
  ts : Option DateTime
deriving DecidableEq, Repr

namespace App

/-- ingest_json_file from src/app/main.py: validate key (401), check
the .json suffix (400), locate the file (404), then load and parse; a
ValueError (bad JSON, bad created_at, unexpected structure) yields 400,
any other exception (the bare-list AttributeError) 500.  A capture
timestamp already in the table short-circuits to already_exists with
zero records inserted. -/
def ingest_json_file (pacific : Zone) (keys : List String) (reqFilename reqKey : String)
    (fs : List SnapFile) (db : Table) : IngestResponse × Table :=
  if validate_client_key keys reqKey = false then
    (⟨401, "unauthorized", none, none⟩, db)
  else if strEndsWith reqFilename ".json" = false then
    (⟨400, "bad_filename", none, none⟩, db)
  else
    match fs.find? (fun g => g.name == reqFilename) with
    | none => (⟨404, "not_found", none, none⟩, db)
    | some f =>
      match f.content with
      | .invalidJson _ _ _ _ => (⟨400, "bad_request", none, none⟩, db)
      | .loaded doc =>
        match parse_timestamp_from_json pacific doc with
        | .error (.valueError _) => (⟨400, "bad_request", none, none⟩, db)
        | .error (.attributeError _) => (⟨500, "server_error", none, none⟩, db)
        | .ok captured =>
          if check_timestamp_exists db captured then
            (⟨200, "already_exists", some 0, some captured⟩, db)
          else
            match process_json_file_async pacific f db with
            | .ok (n, pts, db2) => (⟨200, "success", some n, some pts⟩, db2)
            | .error _ => (⟨400, "bad_request", none, none⟩, db)

end App

/-! ## Eager fetch path (src/app/fetch_endpoint.py fetch_data, identical
in src/fetch_endpoint.py) -/

/-- State of the last_fetched.json sentinel: absent, present but
unreadable (partial or malformed), or readable with the recorded unix
timestamp. -/
inductive SentinelState
  | absent
  | corrupt
  | written (ts : Int)
deriving DecidableEq, Repr

/-- State of the data snapshot file written by create_dummy_data_file. -/
inductive DataState
  | dabsent
  | dpart
  | dwritten
deriving DecidableEq, Repr

structure FetchFS where
  sentinel : SentinelState
  dataF : DataState
deriving DecidableEq, Repr

inductive FetchOutcome
  | unauthorized
  | dryrunReport
  | skippedRecent
  | created
  | failed
deriving DecidableEq, Repr

/-- Whether the 6-hour skip window applies: the sentinel is readable and
its recorded time is less than 21600 seconds before now. -/
def skipRecent (now : Int) (s : SentinelState) : Bool :=
  match s with
  | .written ts => decide (now - ts < 21600)
  | _ => false

/-- fetch_data (non-database part): validate the key, report without
side effects on dryrun == 1, skip when the sentinel is recent, else
write the sentinel and then the data file.  sentinelWriteOk and
dataWriteOk model whether the two filesystem writes succeed: a failed
sentinel write leaves a partial sentinel and aborts, a failed data
write leaves a partial data file whereupon the cleanup deletes the
sentinel before the HTTP 500 is raised. -/
def fetch_data (now : Int) (keys : List String) (key : String) (dryrun : Int)
    (fsIn : FetchFS) (sentinelWriteOk dataWriteOk : Bool) : FetchOutcome × FetchFS :=
  if validate_client_key keys key = false then (.unauthorized, fsIn)
  else if dryrun == 1 then (.dryrunReport, fsIn)
  else if skipRecent now fsIn.sentinel then (.skippedRecent, fsIn)
  else if sentinelWriteOk = false then
    (.failed, { fsIn with sentinel := .corrupt })
  else if dataWriteOk then
    (.created, { sentinel := .written now, dataF := .dwritten })
  else
    (.failed, { sentinel := .absent, dataF := .dpart })

/-! ## Sync status and download endpoints -/

inductive StatusResult
  | unauthorized
  | ok (latest : Option Int) (total : Nat) (unprocessed : List String)
deriving DecidableEq, Repr

namespace App

/-- sync_status_check from src/app/fetch_endpoint.py: validate the key,
then report the latest database timestamp, the number of non-sentinel
json files, and the unprocessed list. -/
def sync_status_check (keys : List String) (key : String) (fs : List SnapFile)
    (processedNames : List String) (db : Table) : StatusResult :=
  if validate_client_key keys key = false then .unauthorized
  else
    let latest := get_latest_db_timestamp db
    .ok latest
      ((fs.filter (fun f => strStartsWith f.name "last_fetched" = false)).length)
      (get_unprocessed_json_files fs processedNames latest)

end App

inductive DownloadResult
  | unauthorized
  | notFound
  | fileResp
deriving DecidableEq, Repr

namespace App

/-- download_data_tar from src/app/main.py: validate the key (401),
then serve ./data.tar or 404. -/
def download_data_tar (keys : List String) (key : String) (dataTarExists : Bool) :
    DownloadResult :=
  if validate_client_key keys key = false then .unauthorized
  else if dataTarExists then .fileResp
  else .notFound

end App

/-! ## General lemmas -/

theorem foldl_chunksOfAux {α β : Type} (n : Nat) (g : β → α → β) :
    ∀ (fuel : Nat) (l : List α) (b : β), l.length ≤ fuel →
      (chunksOfAux n fuel l).foldl (fun acc batch => batch.foldl g acc) b = l.foldl g b := by
  intro fuel
  induction fuel with
  | zero =>
    intro l b h
    match l with
    | [] => rfl
    | x :: xs => simp at h
  | succ fuel ih =>
    intro l b h
    match l with
    | [] => rfl
    | x :: xs =>
      have hlen : (List.drop (n - 1) xs).length ≤ fuel := by
        simp only [List.length_drop]
        simp only [List.length_cons] at h
        omega
      show (chunksOfAux n (fuel + 1) (x :: xs)).foldl
             (fun acc batch => batch.foldl g acc) b = (x :: xs).foldl g b
      rw [chunksOfAux, List.foldl_cons, ih _ _ hlen]
      show (List.drop (n - 1) xs).foldl g ((x :: List.take (n - 1) xs).foldl g b) = _
      rw [List.foldl_cons, ← List.foldl_append, List.take_append_drop, List.foldl_cons]

theorem foldl_chunksOf {α β : Type} (n : Nat) (g : β → α → β) (l : List α) (b : β) :
    (chunksOf n l).foldl (fun acc batch => batch.foldl g acc) b = l.foldl g b :=
  foldl_chunksOfAux n g l.length l b (Nat.le_refl _)

theorem insertExtensionsAsync_eq (captured : DateTime) (db : Table) (exts : List ExtRec) :
    insertExtensionsAsync captured db exts = exts.foldl (insertStepAsync captured) (db, 0) :=
  foldl_chunksOf 500 (insertStepAsync captured) exts (db, 0)

theorem insertExtensionsSync_eq (captured : DateTime) (db : Table) (exts : List ExtRec) :
    insertExtensionsSync captured db exts = exts.foldl (insertStepSync captured) (db, 0) :=
  foldl_chunksOf 500 (insertStepSync captured) exts (db, 0)

theorem insertStepAsync_conf (captured : DateTime) (e : ExtRec) (t : Table) (n : Nat)
    (hc : rowConflicts t (mkRow e captured) = true) :
    insertStepAsync captured (t, n) e = (t, n) := by
  simp [insertStepAsync, insertOnConflict, hc]

theorem insertStepAsync_new (captured : DateTime) (e : ExtRec) (t : Table) (n : Nat)
    (hc : rowConflicts t (mkRow e captured) = false) :
    insertStepAsync captured (t, n) e = (t ++ [mkRow e captured], n + 1) := by
  simp [insertStepAsync, insertOnConflict, hc]

theorem insertStepSync_eq (captured : DateTime) (e : ExtRec) (t : Table) (n : Nat) :
    insertStepSync captured (t, n) e = ((insertOnConflict t (mkRow e captured)).1, n + 1) := rfl

/-- Each async insert step grows the table by exactly the amount it adds
to the counter. -/
theorem foldl_insertStepAsync_len (captured : DateTime) (exts : List ExtRec) :
    ∀ (t : Table) (n : Nat),
      (exts.foldl (insertStepAsync captured) (t, n)).1.length + n =
        t.length + (exts.foldl (insertStepAsync captured) (t, n)).2 := by
  induction exts with
  | nil => intro t n; simp
  | cons e es ih =>
    intro t n
    rw [List.foldl_cons]
    rcases Bool.eq_false_or_eq_true (rowConflicts t (mkRow e captured)) with hc | hc
    · rw [insertStepAsync_conf captured e t n hc]
      exact ih t n
    · rw [insertStepAsync_new captured e t n hc]
      have := ih (t ++ [mkRow e captured]) (n + 1)
      simp only [List.length_append, List.length_cons, List.length_nil] at this
      omega

/-- The sync insert counter counts every record, conflicts included. -/
theorem foldl_insertStepSync_count (captured : DateTime) (exts : List ExtRec) :
    ∀ (t : Table) (n : Nat),
      (exts.foldl (insertStepSync captured) (t, n)).2 = n + exts.length := by
  induction exts with
  | nil => intro t n; simp
  | cons e es ih =>
    intro t n
    rw [List.foldl_cons, insertStepSync_eq]
    rw [ih]
    simp only [List.length_cons]
    omega

/-- If every record of the file already conflicts with the table, the
sync fold leaves the table unchanged while still counting every
record. -/
theorem foldl_insertStepSync_allconf (captured : DateTime) (exts : List ExtRec) :
    ∀ (t : Table) (n : Nat),
      (∀ e ∈ exts, rowConflicts t (mkRow e captured) = true) →
      exts.foldl (insertStepSync captured) (t, n) = (t, n + exts.length) := by
  induction exts with
  | nil => intro t n _; simp
  | cons e es ih =>
    intro t n hall
    have hc : rowConflicts t (mkRow e captured) = true := hall e (List.mem_cons_self e es)
    have hioc : insertOnConflict t (mkRow e captured) = (t, 0) := by
      simp [insertOnConflict, hc]
    rw [List.foldl_cons, insertStepSync_eq, hioc]
    rw [ih t (n + 1) (fun x hx => hall x (List.mem_cons_of_mem e hx))]
    have : n + 1 + es.length = n + (e :: es).length := by
      simp only [List.length_cons]
      omega
    rw [this]

theorem mem_insertSorted (f g : SnapFile) (l : List SnapFile) :
    g ∈ insertSorted f l ↔ g = f ∨ g ∈ l := by
  induction l with
  | nil => simp [insertSorted]
  | cons a as ih =>
    simp only [insertSorted]
    rcases Bool.eq_false_or_eq_true (strLe f.name a.name) with hle | hle
    · rw [if_pos hle]
      simp only [List.mem_cons]
    · rw [if_neg (by simp [hle])]
      simp only [List.mem_cons, ih]
      tauto

theorem length_insertSorted (f : SnapFile) (l : List SnapFile) :
    (insertSorted f l).length = l.length + 1 := by
  induction l with
  | nil => rfl
  | cons a as ih =>
    simp only [insertSorted]
    rcases Bool.eq_false_or_eq_true (strLe f.name a.name) with hle | hle
    · rw [if_pos hle]
      simp
    · rw [if_neg (by simp [hle])]
      simp [ih]

theorem mem_sortByName (fs : List SnapFile) (g : SnapFile) :
    g ∈ sortByName fs ↔ g ∈ fs := by
  induction fs with
  | nil => simp [sortByName]
  | cons a as ih =>
    simp only [sortByName, List.foldr_cons] at *
    rw [mem_insertSorted]
    simp [ih]

theorem length_sortByName (fs : List SnapFile) :
    (sortByName fs).length = fs.length := by
  induction fs with
  | nil => rfl
  | cons a as ih =>
    simp only [sortByName, List.foldr_cons] at *
    rw [length_insertSorted, ih]
    rfl

theorem string_ne_empty_of_length_pos (s : String) (h : 0 < s.length) : s ≠ "" := by
  intro he
  rw [he] at h
  simp at h

theorem jsonDecodeMsg_ne_empty (e : String) (l c p : Nat) :
    jsonDecodeMsg e l c p ≠ "" := by
  apply string_ne_empty_of_length_pos
  have h7 : (": line ").length = 7 := rfl
  simp only [jsonDecodeMsg, String.length_append]
  omega

theorem name_mem_get_unprocessed (fs : List SnapFile) (pn : List String)
    (latest : Option Int) (f : SnapFile)
    (hnd : (fs.map SnapFile.name).Nodup) (hf : f ∈ fs) :
    f.name ∈ get_unprocessed_json_files fs pn latest ↔
      keepFile pn latest f = true := by
  unfold get_unprocessed_json_files
  rw [List.mem_map]
  constructor
  · rintro ⟨g, hg, hgname⟩
    rw [List.mem_filter] at hg
    obtain ⟨hgs, hgk⟩ := hg
    rw [mem_sortByName] at hgs
    have hgf : g = f := List.inj_on_of_nodup_map hnd hgs hf hgname
    rw [← hgf]
    exact hgk
  · intro hk
    refine ⟨f, ?_, rfl⟩
    rw [List.mem_filter, mem_sortByName]
    exact ⟨hf, hk⟩

theorem keepFile_iff (pn : List String) (latest : Option Int) (f : SnapFile) :
    keepFile pn latest f = true ↔
      (¬ f.name = "last_fetched.json" ∧ ¬ f.name ∈ pn ∧
        (latest = none ∨ (parse_json_file_timestamp f).off = none ∨
          latestLt latest (parse_json_file_timestamp f) = true)) := by
  unfold keepFile
  rcases Bool.eq_false_or_eq_true (f.name == "last_fetched.json") with hs | hs
  · rw [if_pos hs]
    have hs2 : f.name = "last_fetched.json" := by simpa using hs
    simp [hs2]
  · rw [if_neg (by simp [hs])]
    have hs2 : ¬ f.name = "last_fetched.json" := by simpa using hs
    rcases Bool.eq_false_or_eq_true (pn.contains f.name) with hc | hc
    · rw [if_pos hc]
      have hc2 : f.name ∈ pn := by simpa using hc
      simp [hs2, hc2]
    · rw [if_neg (by simp only [hc]; decide)]
      have hc2 : ¬ f.name ∈ pn := by simpa using hc
      cases latest with
      | none => simp [hs2, hc2]
      | some latestInstant =>
        cases hoff : (parse_json_file_timestamp f).off with
        | none => simp [hs2, hc2, latestLt, hoff]
        | some o => simp [hs2, hc2, latestLt, hoff]

theorem parse_error_msg_ne (pacific : Zone) (doc : JsonDoc) (e : PyExc)
    (h : App.parse_timestamp_from_json pacific doc = .error e) : e.message ≠ "" := by
  cases doc with
  | topList items =>
    simp only [App.parse_timestamp_from_json] at h
    cases h
    decide
  | obj ca it =>
    cases ca with
    | missing =>
      simp only [App.parse_timestamp_from_json] at h
      cases h
      decide
    | unparsable =>
      simp only [App.parse_timestamp_from_json] at h
      cases h
      decide
    | parsed w o =>
      cases o with
      | some off => simp [App.parse_timestamp_from_json] at h
      | none => simp [App.parse_timestamp_from_json] at h

theorem process_async_error_msg_ne (pacific : Zone) (f : SnapFile) (db : Table)
    (e : PyExc) (h : App.process_json_file_async pacific f db = .error e) :
    e.message ≠ "" := by
  have hpre : ∀ s : String,
      ("Error parsing JSON file: " ++ s) ≠ "" ∧ ("Error processing file: " ++ s) ≠ "" := by
    intro s
    constructor <;>
    · apply string_ne_empty_of_length_pos
      simp only [String.length_append]
      have : (0 : Nat) < ("Error parsing JSON file: ").length := by decide
      have : (0 : Nat) < ("Error processing file: ").length := by decide
      omega
  cases hc : f.content with
  | invalidJson em l c p =>
    simp only [App.process_json_file_async, hc] at h
    cases h
    exact (hpre _).1
  | loaded doc =>
    cases hp : App.parse_timestamp_from_json pacific doc with
    | error e0 =>
      simp only [App.process_json_file_async, hc, hp] at h
      cases h
      exact (hpre _).2
    | ok captured =>
      cases doc with
      | topList items => simp [App.process_json_file_async, hc, hp] at h
      | obj ca it =>
        cases it with
        | some items => simp [App.process_json_file_async, hc, hp] at h
        | none =>
          simp only [App.process_json_file_async, hc, hp] at h
          cases h
          exact (hpre _).2

theorem fileAction_failed_msg_ne (pacific : Zone) (fs : List SnapFile) (db : Table)
    (filename m : String) (db2 : Table)
    (h : App.fileAction pacific fs db filename = (.failedWith m, db2)) : m ≠ "" := by
  cases hfind : fs.find? (fun g => g.name == filename) with
  | none =>
    simp only [App.fileAction, hfind] at h
    cases h
    decide
  | some f =>
    cases hc : f.content with
    | invalidJson em l c p =>
      simp only [App.fileAction, hfind, hc] at h
      cases h
      exact jsonDecodeMsg_ne_empty em l c p
    | loaded doc =>
      cases hp : App.parse_timestamp_from_json pacific doc with
      | error e0 =>
        simp only [App.fileAction, hfind, hc, hp] at h
        cases h
        exact parse_error_msg_ne pacific doc e0 hp
      | ok captured =>
        rcases Bool.eq_false_or_eq_true (check_timestamp_exists db captured) with hex | hex
        · simp [App.fileAction, hfind, hc, hp, hex] at h
        · cases hproc : App.process_json_file_async pacific f db with
          | ok triple =>
            simp [App.fileAction, hfind, hc, hp, hex, hproc] at h
          | error e2 =>
            simp only [App.fileAction, hfind, hc, hp, hproc] at h
            rw [if_neg (by simp [hex])] at h
            cases h
            exact process_async_error_msg_ne pacific f db e2 hproc

theorem syncLoop_agree (pacific : Zone) (fs : List SnapFile) :
    ∀ (names : List String) (db : Table) (p fl tot : Nat)
      (ff : List (String × String)),
      names.foldl (App.syncLoopStep pacific fs) (p, fl, tot, ff, db) =
        (p + countProcessed (App.syncOutcomes pacific fs db names).1,
         fl + countFailed (App.syncOutcomes pacific fs db names).1,
         tot + sumRecords (App.syncOutcomes pacific fs db names).1,
         ff ++ failedPairs (App.syncOutcomes pacific fs db names).1,
         (App.syncOutcomes pacific fs db names).2) := by
  intro names
  induction names with
  | nil =>
    intro db p fl tot ff
    simp [App.syncOutcomes, countProcessed, countFailed, sumRecords, failedPairs]
  | cons nm rest ih =>
    intro db p fl tot ff
    rw [List.foldl_cons]
    cases hfa : App.fileAction pacific fs db nm with
    | mk o db2 =>
      have hout : App.syncOutcomes pacific fs db (nm :: rest) =
          ((nm, o) :: (App.syncOutcomes pacific fs db2 rest).1,
            (App.syncOutcomes pacific fs db2 rest).2) := by
        simp [App.syncOutcomes, hfa]
      cases o with
      | skipped =>
        have hstep : App.syncLoopStep pacific fs (p, fl, tot, ff, db) nm =
            (p, fl, tot, ff, db2) := by
          simp [App.syncLoopStep, hfa]
        rw [hstep, ih, hout]
        simp [countProcessed, countFailed, sumRecords, failedPairs,
          outcomeProcessed, outcomeFailed, outcomeSkipped]
      | processedOk n =>
        have hstep : App.syncLoopStep pacific fs (p, fl, tot, ff, db) nm =
            (p + 1, fl, tot + n, ff, db2) := by
          simp [App.syncLoopStep, hfa]
        rw [hstep, ih, hout]
        simp [countProcessed, countFailed, sumRecords, failedPairs,
          outcomeProcessed, outcomeFailed, outcomeSkipped, Nat.add_assoc]
      | failedWith m =>
        have hstep : App.syncLoopStep pacific fs (p, fl, tot, ff, db) nm =
            (p, fl + 1, tot, ff ++ [(nm, m)], db2) := by
          simp [App.syncLoopStep, hfa]
        rw [hstep, ih, hout]
        simp [countProcessed, countFailed, sumRecords, failedPairs,
          outcomeProcessed, outcomeFailed, outcomeSkipped, Nat.add_assoc]

theorem main_run_foldl (pacific : Zone) (now : Int) :
    ∀ (l : List SnapFile) (s : BatchState),
      ((l.foldl (IngestScript.main_step pacific now) s).processedNames =
        s.processedNames ++ l.map (fun f => f.name)) ∧
      ((l.foldl (IngestScript.main_step pacific now) s).processedFiles =
        s.processedFiles + l.length) := by
  intro l
  induction l with
  | nil => intro s; simp
  | cons f rest ih =>
    intro s
    rw [List.foldl_cons]
    obtain ⟨h1, h2⟩ := ih (IngestScript.main_step pacific now s f)
    constructor
    · rw [h1]
      simp [IngestScript.main_step, IngestScript.archive_processed_file]
    · rw [h2]
      simp [IngestScript.main_step, IngestScript.archive_processed_file]
      omega

/-! ## Concrete data for witnesses and counterexamples -/

/-- A concrete stand-in for the Pacific zone in evaluations: the winter
offset -8h for both directions. -/
def pacificC : Zone := fixedZone (-28800)

/-- The one key shipped in src/config.py. -/
def goodKey : String := "550e8400-e29b-41d4-a716-446655440000"

def w1rec : ExtRec := [("extension_id", JVal.jstr "x")]

def w1ts : DateTime := ⟨-28800, some (-28800)⟩

def w1file : SnapFile :=
  ⟨"a.json", .loaded (.obj (.parsed 0 (some 0)) (some [w1rec])), 0⟩

def w1db : Table := [mkRow w1rec w1ts]

def w2rec1 : ExtRec := [("extension_id", JVal.jstr "a")]
def w2rec2 : ExtRec := [("extension_id", JVal.jstr "b")]
def w2rec3 : ExtRec := [("extension_id", JVal.jstr "c")]

def w2ts : DateTime := ⟨-28800, some (-28800)⟩

/-- A snapshot with three records of which the first duplicates a row
already in the table. -/
def w2file : SnapFile :=
  ⟨"b.json", .loaded (.obj (.parsed 0 (some 0)) (some [w2rec1, w2rec2, w2rec3])), 0⟩

def w2db : Table := [mkRow w2rec1 w2ts]

def w2db2 : Table := [mkRow w2rec1 w2ts, mkRow w2rec2 w2ts, mkRow w2rec3 w2ts]

def w3file : SnapFile := ⟨"a.json", .loaded (.obj .missing none), 100⟩

def w3lf : SnapFile := ⟨"last_fetched.json", .loaded (.obj .missing none), 0⟩

/-! ## Claims -/

/-- C1: for a snapshot file whose capture timestamp already has rows in
the stats table, the HTTP ingest endpoint returns already_exists with 0
records inserted and the parsed timestamp, leaving the table unchanged
(first conjunct).  The standalone batch ingestor has no such pre-check:
when every record of the file already conflicts, the table is likewise
unchanged, but the returned count is the full record count, not 0
(second conjunct — the claim's "returns 0 rows inserted" fails there,
see the counterexample). -/
theorem claim1_thm (pacific : Zone) (now : Int) :
    (∀ (keys : List String) (reqFilename reqKey : String) (fs : List SnapFile)
       (db : Table) (f : SnapFile) (doc : JsonDoc) (captured : DateTime),
       validate_client_key keys reqKey = true →
       strEndsWith reqFilename ".json" = true →
       fs.find? (fun g => g.name == reqFilename) = some f →
       f.content = .loaded doc →
       App.parse_timestamp_from_json pacific doc = .ok captured →
       check_timestamp_exists db captured = true →
       App.ingest_json_file pacific keys reqFilename reqKey fs db =
         (⟨200, "already_exists", some 0, some captured⟩, db)) ∧
    (∀ (g : SnapFile) (db : Table) (ca : CreatedAt) (items : List ExtRec)
       (captured : DateTime),
       g.content = .loaded (.obj ca (some items)) →
       IngestScript.parse_timestamp_from_json pacific now (.obj ca (some items)) =
         .ok captured →
       (∀ e ∈ items, rowConflicts db (mkRow e captured) = true) →
       IngestScript.process_json_file pacific now g db = (items.length, db)) := by
  constructor
  · intro keys reqFilename reqKey fs db f doc captured hkey hsuf hfind hcontent hparse hex
    simp [App.ingest_json_file, hkey, hsuf, hfind, hcontent, hparse, hex]
  · intro g db ca items captured hcontent hparse hall
    simp only [IngestScript.process_json_file, hcontent, hparse]
    rw [insertExtensionsSync_eq, foldl_insertStepSync_allconf captured items db 0 hall]
    simp

/-- Witness for C1 at a concrete one-record file whose row is already
in the table. -/
theorem claim1_witness :
    App.ingest_json_file pacificC VALID_CLIENT_KEYS "a.json" goodKey [w1file] w1db =
      (⟨200, "already_exists", some 0, some w1ts⟩, w1db) ∧
    IngestScript.process_json_file pacificC 0 w1file w1db = (1, w1db) := by
  have h := claim1_thm pacificC 0
  constructor
  · exact h.1 VALID_CLIENT_KEYS "a.json" goodKey [w1file] w1db w1file
      (.obj (.parsed 0 (some 0)) (some [w1rec])) w1ts
      (by decide) (by decide) (by decide) rfl (by rfl) (by decide)
  · exact h.2 w1file w1db (.parsed 0 (some 0)) [w1rec] w1ts rfl (by rfl) (by decide)

/-- C1 counterexample: re-ingesting a one-record file whose capture
timestamp (and row) already exists in the table through the standalone
batch ingestor returns 1, not the claimed 0, although the table is
indeed unchanged. -/
theorem claim1_counterexample :
    check_timestamp_exists w1db w1ts = true ∧
    IngestScript.process_json_file pacificC 0 w1file w1db = (1, w1db) ∧
    (IngestScript.process_json_file pacificC 0 w1file w1db).1 ≠ 0 := by decide

/-- C2: for the HTTP application ingestor, the returned rows-inserted
count equals the number of rows that actually changed table state
(first conjunct).  The standalone batch ingestor instead returns the
full record count of the file, counting conflict no-ops as inserted
(second conjunct) — the claim's scenario of 3 records with 1
pre-existing duplicate yields 2 through the application ingestor but 3
through the standalone one. -/
theorem claim2_thm (pacific : Zone) (now : Int) :
    (∀ (f : SnapFile) (db : Table) (n : Nat) (ts : DateTime) (db2 : Table),
       App.process_json_file_async pacific f db = .ok (n, ts, db2) →
       db2.length = db.length + n) ∧
    (∀ (g : SnapFile) (db : Table) (ca : CreatedAt) (items : List ExtRec)
       (captured : DateTime),
       g.content = .loaded (.obj ca (some items)) →
       IngestScript.parse_timestamp_from_json pacific now (.obj ca (some items)) =
         .ok captured →
       (IngestScript.process_json_file pacific now g db).1 = items.length) := by
  constructor
  · intro f db n ts db2 h
    cases hc : f.content with
    | invalidJson em l c p => simp [App.process_json_file_async, hc] at h
    | loaded doc =>
      cases hp : App.parse_timestamp_from_json pacific doc with
      | error e => simp [App.process_json_file_async, hc, hp] at h
      | ok captured =>
        cases doc with
        | topList items =>
          simp only [App.process_json_file_async, hc, hp] at h
          rw [insertExtensionsAsync_eq] at h
          simp only [Except.ok.injEq, Prod.mk.injEq] at h
          obtain ⟨hn, hts, hdb⟩ := h
          subst hn
          subst hdb
          have := foldl_insertStepAsync_len captured items db 0
          omega
        | obj ca it =>
          cases it with
          | some items =>
            simp only [App.process_json_file_async, hc, hp] at h
            rw [insertExtensionsAsync_eq] at h
            simp only [Except.ok.injEq, Prod.mk.injEq] at h
            obtain ⟨hn, hts, hdb⟩ := h
            subst hn
            subst hdb
            have := foldl_insertStepAsync_len captured items db 0
            omega
          | none => simp [App.process_json_file_async, hc, hp] at h
  · intro g db ca items captured hcontent hparse
    simp only [IngestScript.process_json_file, hcontent, hparse]
    rw [insertExtensionsSync_eq]
    have := foldl_insertStepSync_count captured items db 0
    simpa using this

/-- Witness for C2 on the spec's scenario: 3 records, 1 pre-existing
duplicate — the application ingestor returns 2 and grows the table by
2; the standalone ingestor reports the full record count 3. -/
theorem claim2_witness :
    App.process_json_file_async pacificC w2file w2db = .ok (2, w2ts, w2db2) ∧
    w2db2.length = w2db.length + 2 ∧
    (IngestScript.process_json_file pacificC 0 w2file w2db).1 = 3 := by
  have h := claim2_thm pacificC 0
  refine ⟨by rfl, ?_, ?_⟩
  · exact h.1 w2file w2db 2 w2ts w2db2 (by rfl)
  · exact h.2 w2file w2db (.parsed 0 (some 0)) [w2rec1, w2rec2, w2rec3] w2ts rfl (by rfl)

/-- C2 counterexample: the claim's scenario through the standalone
batch ingestor (cited as a source of the claim) returns 3, not 2,
although only 2 rows changed table state. -/
theorem claim2_counterexample :
    (IngestScript.process_json_file pacificC 0 w2file w2db).1 = 3 ∧
    ((IngestScript.process_json_file pacificC 0 w2file w2db).2).length = w2db.length + 2 ∧
    (IngestScript.process_json_file pacificC 0 w2file w2db).1 ≠ 2 := by decide

/-- C3: a candidate file appears in the resolver output iff it is not
the last_fetched.json sentinel, is not archived, and either there is no
database timestamp, or its lenient timestamp is naive (the comparison
raises and the file is kept), or that timestamp is strictly newer than
the database one.  The claim as frozen omits the sentinel condition;
see the counterexample. -/
theorem claim3_thm (fs : List SnapFile) (pn : List String) (latest : Option Int)
    (f : SnapFile) (hnd : (fs.map SnapFile.name).Nodup) (hf : f ∈ fs) :
    f.name ∈ get_unprocessed_json_files fs pn latest ↔
      (¬ f.name = "last_fetched.json" ∧ ¬ f.name ∈ pn ∧
        (latest = none ∨ (parse_json_file_timestamp f).off = none ∨
          latestLt latest (parse_json_file_timestamp f) = true)) := by
  rw [name_mem_get_unprocessed fs pn latest f hnd hf]
  exact keepFile_iff pn latest f

/-- Witness for C3 at a one-file directory with an empty database. -/
theorem claim3_witness :
    ("a.json" ∈ get_unprocessed_json_files [w3file] [] none ↔
      (¬ ("a.json" : String) = "last_fetched.json" ∧
        ¬ ("a.json" : String) ∈ ([] : List String) ∧
        ((none : Option Int) = none ∨ (parse_json_file_timestamp w3file).off = none ∨
          latestLt none (parse_json_file_timestamp w3file) = true))) ∧
    "a.json" ∈ get_unprocessed_json_files [w3file] [] none := by
  constructor
  · exact claim3_thm [w3file] [] none w3file (by decide) (by decide)
  · decide

/-- C3 counterexample: the sentinel file last_fetched.json satisfies
the claim's condition (not archived, empty database) yet never appears
in the resolver output. -/
theorem claim3_counterexample :
    ¬ (("last_fetched.json" ∈ get_unprocessed_json_files [w3lf] [] none) ↔
      (¬ ("last_fetched.json" : String) ∈ ([] : List String) ∧
        ((none : Option Int) = none ∨ (parse_json_file_timestamp w3lf).off = none ∨
          latestLt none (parse_json_file_timestamp w3lf) = true))) := by decide

theorem syncOutcomes_length (pacific : Zone) (fs : List SnapFile) :
    ∀ (names : List String) (db : Table),
      (App.syncOutcomes pacific fs db names).1.length = names.length := by
  intro names
  induction names with
  | nil => intro db; rfl
  | cons nm rest ih =>
    intro db
    simp [App.syncOutcomes, ih]

theorem counts_partition (os : List (String × FileOutcome)) :
    countProcessed os + countFailed os + countSkipped os = os.length := by
  induction os with
  | nil => rfl
  | cons x xs ih =>
    cases hx : x.2 <;>
      simp [countProcessed, countFailed, countSkipped, hx,
        outcomeProcessed, outcomeFailed, outcomeSkipped] <;> omega

theorem failedPairs_length (os : List (String × FileOutcome)) :
    (failedPairs os).length = countFailed os := by
  induction os with
  | nil => rfl
  | cons x xs ih =>
    cases hx : x.2
    · simp [failedPairs, countFailed, hx, outcomeFailed, ih]
    · simp [failedPairs, countFailed, hx, outcomeFailed, ih]
    · simp [failedPairs, countFailed, hx, outcomeFailed, ih]
      omega

theorem syncOutcomes_failed_msgs (pacific : Zone) (fs : List SnapFile) :
    ∀ (names : List String) (db : Table) (pr : String × String),
      pr ∈ failedPairs (App.syncOutcomes pacific fs db names).1 → pr.2 ≠ "" := by
  intro names
  induction names with
  | nil => intro db pr h; simp [App.syncOutcomes, failedPairs] at h
  | cons nm rest ih =>
    intro db pr h
    cases hfa : App.fileAction pacific fs db nm with
    | mk o db2 =>
      have hout : App.syncOutcomes pacific fs db (nm :: rest) =
          ((nm, o) :: (App.syncOutcomes pacific fs db2 rest).1,
            (App.syncOutcomes pacific fs db2 rest).2) := by
        simp [App.syncOutcomes, hfa]
      rw [hout] at h
      cases o with
      | skipped =>
        simp only [failedPairs] at h
        exact ih db2 pr h
      | processedOk n =>
        simp only [failedPairs] at h
        exact ih db2 pr h
      | failedWith m =>
        simp only [failedPairs, List.mem_cons] at h
        rcases h with h | h
        · rw [h]
          exact fileAction_failed_msg_ne pacific fs db nm m db2 hfa
        · exact ih db2 pr h

/-- C4 (amended): in a non-dry-run sync cycle the response's counters
are exactly the per-file outcome counts, where a file whose timestamp
already exists in the table is skipped and counts as neither processed
nor failed; processed + failed + skipped = files_found, failed_files
lists exactly the failing filenames each with a non-empty error detail,
and the status is success / partial / error according to whether
nothing failed / something failed and something was processed /
something failed and nothing was processed.  The frozen claim's
files_processed + files_failed = N therefore holds exactly when no
file was skipped; see the counterexample for the skipped case. -/
theorem claim4_thm (pacific : Zone) (keys : List String) (key : String)
    (fs : List SnapFile) (pn : List String) (db : Table)
    (names : List String) (os : List (String × FileOutcome)) (dbF : Table)
    (hkey : validate_client_key keys key = true)
    (hnames : names = get_unprocessed_json_files fs pn (get_latest_db_timestamp db))
    (hne : names ≠ [])
    (hos : os = (App.syncOutcomes pacific fs db names).1)
    (hdbF : dbF = (App.syncOutcomes pacific fs db names).2) :
    App.auto_sync_files pacific keys key 0 fs pn db =
      (.ok { status := syncStatusOf (countProcessed os) (countFailed os)
             files_found := names.length
             files_processed := countProcessed os
             files_failed := countFailed os
             total_records := sumRecords os
             dry_run := false
             msg := syncMsgOf (countProcessed os) (countFailed os)
             files_to_process := none
             failed_files := if failedPairs os = [] then none else some (failedPairs os) },
       dbF) ∧
    countProcessed os + countFailed os + countSkipped os = names.length ∧
    (failedPairs os).length = countFailed os ∧
    (∀ pr ∈ failedPairs os, pr.2 ≠ "") ∧
    (countFailed os = 0 → syncStatusOf (countProcessed os) (countFailed os) = "success") ∧
    (0 < countFailed os → 0 < countProcessed os →
      syncStatusOf (countProcessed os) (countFailed os) = "partial") ∧
    (0 < countFailed os → countProcessed os = 0 →
      syncStatusOf (countProcessed os) (countFailed os) = "error") ∧
    (countSkipped os = 0 → countProcessed os + countFailed os = names.length) := by
  have hpart : countProcessed os + countFailed os + countSkipped os = names.length := by
    rw [hos, counts_partition, syncOutcomes_length, hnames]
  refine ⟨?_, hpart, by rw [hos]; exact failedPairs_length _, ?_, ?_, ?_, ?_, ?_⟩
  · unfold App.auto_sync_files
    rw [if_neg (by simp [hkey])]
    rw [if_neg (by simp [← hnames, hne])]
    rw [if_neg (by decide)]
    rw [← hnames]
    rw [syncLoop_agree pacific fs names db 0 0 0 []]
    rw [← hos, ← hdbF]
    simp only [Nat.zero_add, List.nil_append]
    have hff : (failedPairs os).isEmpty = true ↔ failedPairs os = [] := by
      cases failedPairs os <;> simp
    by_cases hempty : failedPairs os = []
    · rw [if_pos (hff.mpr hempty), if_pos hempty]
      simp [hnames]
    · rw [if_neg (fun hcon => hempty (hff.mp hcon)), if_neg hempty]
      simp [hnames]
  · intro pr hpr
    rw [hos] at hpr
    exact syncOutcomes_failed_msgs pacific fs names db pr hpr
  · intro h0
    simp [syncStatusOf, h0]
  · intro hf hp
    simp [syncStatusOf, hf, hp]
  · intro hf hp
    simp [syncStatusOf, hf, hp]
  · intro hsk
    omega

def w4okrec : ExtRec := [("extension_id", JVal.jstr "k")]

def w4ok : SnapFile := ⟨"a.json", .loaded (.obj (.parsed 0 (some 0)) (some [w4okrec])), 0⟩

def w4bad : SnapFile := ⟨"b.json", .invalidJson "Expecting value" 1 1 0, 0⟩

def w4fs : List SnapFile := [w4ok, w4bad]

def w4names : List String := ["a.json", "b.json"]

/-- Witness for C4: over an empty table, one well-formed file and one
malformed file give one processed and one failed outcome, status
partial, with the failing filename and its non-empty detail listed. -/
theorem claim4_witness :
    (App.auto_sync_files pacificC VALID_CLIENT_KEYS goodKey 0 w4fs [] []).1 =
      .ok { status := "partial", files_found := 2, files_processed := 1,
            files_failed := 1, total_records := 1, dry_run := false,
            msg := "Processed 1 files, 1 failed", files_to_process := none,
            failed_files := some [("b.json", "Expecting value: line 1 column 1 (char 0)")] } ∧
    countProcessed (App.syncOutcomes pacificC w4fs [] w4names).1 +
      countFailed (App.syncOutcomes pacificC w4fs [] w4names).1 +
      countSkipped (App.syncOutcomes pacificC w4fs [] w4names).1 = w4names.length := by
  have h := claim4_thm pacificC VALID_CLIENT_KEYS goodKey w4fs [] [] w4names
      ((App.syncOutcomes pacificC w4fs [] w4names).1)
      ((App.syncOutcomes pacificC w4fs [] w4names).2)
      (by decide) (by decide) (by decide) rfl rfl
  constructor
  · rw [h.1]
    decide
  · exact h.2.1

def cx4row : Row := mkRow [] ⟨500, some (-28800)⟩

def cx4db : Table := [cx4row]

def cx4f1 : SnapFile := ⟨"a.json", .invalidJson "Expecting value" 1 1 0, 999999⟩

/-- A file with a naive created_at whose Pacific-tagged instant already
exists in the table: the resolver keeps it (the naive comparison
raises), the sync loop then skips it. -/
def cx4f2 : SnapFile := ⟨"b.json", .loaded (.obj (.parsed 500 none) (some [])), 0⟩

def cx4fs : List SnapFile := [cx4f1, cx4f2]

/-- C4 counterexample: two discovered files, exactly one failing
(0 < K < N), yet the status is error rather than partial and
files_processed + files_failed = 1 ≠ 2, because the second file was
skipped by the already-exists check. -/
theorem claim4_counterexample :
    (App.auto_sync_files pacificC VALID_CLIENT_KEYS goodKey 0 cx4fs [] cx4db).1 =
      .ok { status := "error", files_found := 2, files_processed := 0,
            files_failed := 1, total_records := 0, dry_run := false,
            msg := "All 1 files failed to process", files_to_process := none,
            failed_files := some [("a.json", "Expecting value: line 1 column 1 (char 0)")] } ∧
    ¬ ("error" = "partial" ∧ (0 + 1 : Nat) = 2) := by decide

/-- C5 (amended): the HTTP application's strict timestamp extraction
raises a typed ValueError on a missing or unparsable created_at and the
ingest endpoint aborts with 400 leaving the table unchanged; the
standalone batch ingestor's extraction instead silently falls back to
the current time (refuting the frozen claim for that ingestor, see the
counterexample); the scanner's lenient extraction is total, degrading
on a missing created_at to the filename pattern and then to the file's
last-modified time, and on any other failure to the last-modified
time. -/
theorem claim5_thm (pacific : Zone) (now : Int) (it : Option (List ExtRec)) :
    (App.parse_timestamp_from_json pacific (.obj .missing it) =
      .error (.valueError noCreatedAtMsg)) ∧
    (App.parse_timestamp_from_json pacific (.obj .unparsable it) =
      .error (.valueError badIsoMsg)) ∧
    (∀ (keys : List String) (reqFilename reqKey : String) (fs : List SnapFile)
       (db : Table) (f : SnapFile),
       validate_client_key keys reqKey = true →
       strEndsWith reqFilename ".json" = true →
       fs.find? (fun g => g.name == reqFilename) = some f →
       f.content = .loaded (.obj .missing it) →
       App.ingest_json_file pacific keys reqFilename reqKey fs db =
         (⟨400, "bad_request", none, none⟩, db)) ∧
    (IngestScript.parse_timestamp_from_json pacific now (.obj .missing it) =
      .ok (fromInstantIn pacific now)) ∧
    (IngestScript.parse_timestamp_from_json pacific now (.obj .unparsable it) =
      .ok (fromInstantIn pacific now)) ∧
    (∀ f : SnapFile, f.content = .loaded (.obj .missing it) →
      ((∀ w : Int, parseStemTimestamp (stem f.name) = some w →
          parse_json_file_timestamp f = replacePy PST w) ∧
       (parseStemTimestamp (stem f.name) = none →
          parse_json_file_timestamp f = fromInstantIn PST f.mtime))) ∧
    (∀ f : SnapFile, f.content = .loaded (.obj .unparsable it) →
      parse_json_file_timestamp f = fromInstantIn PST f.mtime) ∧
    (∀ (f : SnapFile) (em : String) (l c p : Nat), f.content = .invalidJson em l c p →
      parse_json_file_timestamp f = fromInstantIn PST f.mtime) := by
  refine ⟨rfl, rfl, ?_, rfl, rfl, ?_, ?_, ?_⟩
  · intro keys reqFilename reqKey fs db f hkey hsuf hfind hcontent
    simp [App.ingest_json_file, hkey, hsuf, hfind, hcontent, App.parse_timestamp_from_json]
  · intro f hcontent
    constructor
    · intro w hw
      simp [parse_json_file_timestamp, hcontent, hw]
    · intro hw
      simp [parse_json_file_timestamp, hcontent, hw]
  · intro f hcontent
    simp [parse_json_file_timestamp, hcontent]
  · intro f em l c p hcontent
    simp [parse_json_file_timestamp, hcontent]

def w5m2 : SnapFile := ⟨"m.json", .loaded (.obj .missing none), 0⟩

def w5missing : SnapFile := ⟨"2025-07-12-12-06-24.json", .loaded (.obj .missing none), 77⟩

def w5stemVal : Int := (parseStemTimestamp "2025-07-12-12-06-24").getD 0

def w5unp : SnapFile := ⟨"nodate.json", .loaded (.obj .unparsable none), 88⟩

/-- Witness for C5: the ingest endpoint rejects a created_at-less file
with 400 and an unchanged table, the standalone extraction returns the
current time, and the lenient extraction takes the filename-pattern and
modification-time fallbacks. -/
theorem claim5_witness :
    App.ingest_json_file pacificC VALID_CLIENT_KEYS "m.json" goodKey [w5m2] [] =
      (⟨400, "bad_request", none, none⟩, []) ∧
    IngestScript.parse_timestamp_from_json pacificC 7 (.obj .missing none) =
      .ok (fromInstantIn pacificC 7) ∧
    parse_json_file_timestamp w5missing = replacePy PST w5stemVal ∧
    parse_json_file_timestamp w5unp = fromInstantIn PST 88 := by
  have h := claim5_thm pacificC 7 none
  refine ⟨?_, h.2.2.2.1, ?_, ?_⟩
  · exact h.2.2.1 VALID_CLIENT_KEYS "m.json" goodKey [w5m2] [] w5m2
      (by decide) (by decide) (by decide) rfl
  · exact (h.2.2.2.2.2.1 w5missing rfl).1 w5stemVal (by decide)
  · exact h.2.2.2.2.2.2.1 w5unp rfl

/-- C5 counterexample: the standalone batch ingestor's strict timestamp
extraction (src/ingest.py, cited by the claim) does not raise on a
missing created_at: it silently falls back to the current time, and
ingestion of such a file proceeds instead of aborting. -/
theorem claim5_counterexample :
    IngestScript.parse_timestamp_from_json pacificC 0 (.obj .missing none) =
      .ok (fromInstantIn pacificC 0) ∧
    (fromInstantIn pacificC 0).off = some (-28800) ∧
    IngestScript.process_json_file pacificC 0
        ⟨"c.json", .loaded (.obj .missing (some [w4okrec])), 0⟩ [] =
      (1, [mkRow w4okrec (fromInstantIn pacificC 0)]) := by
  refine ⟨rfl, rfl, by decide⟩

/-- C6 (amended): both strict extractions normalize to the Pacific
zone — an explicit offset is converted preserving the absolute instant,
a naive value keeps its wall reading and is tagged with the zone — but
the scanner's lenient extraction returns a parsed created_at completely
unchanged: naive stays naive and a foreign offset is retained (the
frozen claim fails there, see the counterexample; the lenient fallback
paths also tag with fixed UTC-8 rather than the DST-aware zone). -/
theorem claim6_thm (pacific : Zone) (now w o : Int) (oo : Option Int)
    (it : Option (List ExtRec)) :
    (App.parse_timestamp_from_json pacific (.obj (.parsed w (some o)) it) =
      .ok (astimezonePy pacific w o)) ∧
    ((astimezonePy pacific w o).instant = some (w - o)) ∧
    ((astimezonePy pacific w o).off = some (pacific.fromInstant (w - o))) ∧
    (App.parse_timestamp_from_json pacific (.obj (.parsed w none) it) =
      .ok (replacePy pacific w)) ∧
    ((replacePy pacific w).wall = w) ∧
    ((replacePy pacific w).off = some (pacific.fromLocal w)) ∧
    (IngestScript.parse_timestamp_from_json pacific now (.obj (.parsed w (some o)) it) =
      .ok (astimezonePy pacific w o)) ∧
    (IngestScript.parse_timestamp_from_json pacific now (.obj (.parsed w none) it) =
      .ok (replacePy pacific w)) ∧
    (∀ f : SnapFile, f.content = .loaded (.obj (.parsed w oo) it) →
      parse_json_file_timestamp f = ⟨w, oo⟩) := by
  refine ⟨rfl, ?_, rfl, rfl, rfl, rfl, rfl, rfl, ?_⟩
  · simp [astimezonePy, DateTime.instant]
  · intro f hcontent
    simp [parse_json_file_timestamp, hcontent]

def w6f : SnapFile := ⟨"w.json", .loaded (.obj (.parsed 321 (some 3600)) none), 0⟩

/-- Witness for C6 at a concrete offset-carrying input. -/
theorem claim6_witness :
    App.parse_timestamp_from_json pacificC (.obj (.parsed 321 (some 3600)) none) =
      .ok (astimezonePy pacificC 321 3600) ∧
    (astimezonePy pacificC 321 3600).instant = some (321 - 3600) ∧
    parse_json_file_timestamp w6f = ⟨321, some 3600⟩ := by
  have h := claim6_thm pacificC 0 321 3600 (some 3600) none
  exact ⟨h.1, h.2.1, h.2.2.2.2.2.2.2.2 w6f rfl⟩

def cx6naive : SnapFile := ⟨"n.json", .loaded (.obj (.parsed 500 none) none), 0⟩

def cx6utc : SnapFile := ⟨"u.json", .loaded (.obj (.parsed 1000 (some 0)) none), 0⟩

/-- C6 counterexample: the lenient extraction returns a naive datetime
for a naive created_at (not timezone-aware at all) and keeps a UTC
offset unconverted (not the Pacific conversion of the same instant). -/
theorem claim6_counterexample :
    parse_json_file_timestamp cx6naive = ⟨500, none⟩ ∧
    (parse_json_file_timestamp cx6naive).off = none ∧
    parse_json_file_timestamp cx6utc = ⟨1000, some 0⟩ ∧
    parse_json_file_timestamp cx6utc ≠ astimezonePy pacificC 1000 0 := by decide

/-- C7 (amended): the standalone batch ingestor archives every
discovered file unconditionally after attempting ingestion — the
archive list gains the name of every file in sorted order and the
processed-file counter reaches the full file count, whether or not the
per-file processing succeeded (per-file failures are swallowed as a
0-row result).  The frozen claim that a failed file is never archived
is refuted by the counterexample. -/
theorem claim7_thm (pacific : Zone) (now : Int) (files : List SnapFile)
    (pn : List String) (db : Table) :
    (IngestScript.main_run pacific now files pn db).processedNames =
      pn ++ (sortByName files).map (fun f => f.name) ∧
    (IngestScript.main_run pacific now files pn db).processedFiles = files.length := by
  unfold IngestScript.main_run
  obtain ⟨h1, h2⟩ := main_run_foldl pacific now (sortByName files) ⟨files, pn, db, 0, 0⟩
  refine ⟨h1, ?_⟩
  rw [h2, length_sortByName]
  simp

def cx7bad : SnapFile := ⟨"bad.json", .invalidJson "Expecting value" 1 1 0, 0⟩

/-- C7 counterexample: a file whose processing fails (invalid JSON,
0 rows, table unchanged) is nevertheless moved to the archive and no
longer present in the live directory after the run. -/
theorem claim7_counterexample :
    IngestScript.process_json_file pacificC 0 cx7bad [] = (0, []) ∧
    (IngestScript.main_run pacificC 0 [cx7bad] [] []).processedNames = ["bad.json"] ∧
    (IngestScript.main_run pacificC 0 [cx7bad] [] []).dataFiles = [] := by decide

/-- C8: in the non-dry-run fetch path, once the sentinel write has
succeeded, a failure of the data write deletes the sentinel before the
error is reported (the data file is left partial but the sentinel is
absent), and a successful data write leaves both the sentinel and the
data file written: no partially-consistent sentinel state persists. -/
theorem claim8_thm (now : Int) (keys : List String) (key : String)
    (fsIn : FetchFS) (dOk : Bool)
    (hkey : validate_client_key keys key = true)
    (hskip : skipRecent now fsIn.sentinel = false) :
    (dOk = false →
      fetch_data now keys key 0 fsIn true dOk = (.failed, ⟨.absent, .dpart⟩)) ∧
    (dOk = true →
      fetch_data now keys key 0 fsIn true dOk = (.created, ⟨.written now, .dwritten⟩)) := by
  constructor
  · intro hd
    subst hd
    simp [fetch_data, hkey, hskip]
  · intro hd
    subst hd
    simp [fetch_data, hkey, hskip]

/-- Witness for C8 at a concrete run with no pre-existing sentinel. -/
theorem claim8_witness :
    fetch_data 100000 VALID_CLIENT_KEYS goodKey 0 ⟨.absent, .dabsent⟩ true false =
      (.failed, ⟨.absent, .dpart⟩) ∧
    fetch_data 100000 VALID_CLIENT_KEYS goodKey 0 ⟨.absent, .dabsent⟩ true true =
      (.created, ⟨.written 100000, .dwritten⟩) := by
  have h1 := claim8_thm 100000 VALID_CLIENT_KEYS goodKey ⟨.absent, .dabsent⟩ false
      (by decide) (by decide)
  have h2 := claim8_thm 100000 VALID_CLIENT_KEYS goodKey ⟨.absent, .dabsent⟩ true
      (by decide) (by decide)
  exact ⟨h1.1 rfl, h2.2 rfl⟩

/-- C9: a dry-run sync request (dryrun = 1) over a non-empty
unprocessed list reports exactly that list in files_to_process with
files_processed = 0 and returns the database state unchanged — no
ingestion occurs (the model's auto_sync_files touches no other
state). -/
theorem claim9_thm (pacific : Zone) (keys : List String) (key : String)
    (fs : List SnapFile) (pn : List String) (db : Table)
    (hkey : validate_client_key keys key = true)
    (hne : get_unprocessed_json_files fs pn (get_latest_db_timestamp db) ≠ []) :
    App.auto_sync_files pacific keys key 1 fs pn db =
      (.ok { status := "success",
             files_found :=
               (get_unprocessed_json_files fs pn (get_latest_db_timestamp db)).length,
             files_processed := 0, files_failed := 0, total_records := 0,
             dry_run := true,
             msg := "Would process " ++
               toString (get_unprocessed_json_files fs pn (get_latest_db_timestamp db)).length
               ++ " files",
             files_to_process :=
               some (get_unprocessed_json_files fs pn (get_latest_db_timestamp db)),
             failed_files := none }, db) := by
  unfold App.auto_sync_files
  rw [if_neg (by simp [hkey])]
  rw [if_neg (by simp [hne])]
  rw [if_pos (by decide)]
  simp

def w9f1 : SnapFile := ⟨"a.json", .loaded (.obj .missing none), 5⟩

def w9f2 : SnapFile := ⟨"b.json", .loaded (.obj .missing none), 6⟩

/-- Witness for C9: a dry-run over two unprocessed files lists both,
processes none, and leaves the (empty) table untouched. -/
theorem claim9_witness :
    App.auto_sync_files pacificC VALID_CLIENT_KEYS goodKey 1 [w9f1, w9f2] [] [] =
      (.ok { status := "success", files_found := 2, files_processed := 0,
             files_failed := 0, total_records := 0, dry_run := true,
             msg := "Would process 2 files",
             files_to_process := some ["a.json", "b.json"],
             failed_files := none }, []) := by
  have h := claim9_thm pacificC VALID_CLIENT_KEYS goodKey [w9f1, w9f2] [] []
      (by decide) (by decide)
  rw [h]
  decide

/-- C10: client-key validation returns true exactly when the key parses
as a UUID (per the uuid.UUID canonicalization and int(.., 16) grammar)
and is literally a member of the configured allow-list; a key that does
not parse yields false without raising even if the exact string is in
the list; and with an invalid key every modelled endpoint (auto-sync,
ingest, fetch, sync-status, download) answers 401/unauthorized and
returns its state unchanged for every possible state — so no file or
database effect can have occurred. -/
theorem claim10_thm (keys : List String) (key : String) :
    validate_client_key keys key = (pyUUIDok key && keys.contains key) ∧
    (pyUUIDok key = false → validate_client_key keys key = false) ∧
    (validate_client_key keys key = false →
      ∀ (pacific : Zone) (dryrun : Int) (fname : String) (fs : List SnapFile)
        (pn : List String) (db : Table) (now : Int) (fsF : FetchFS)
        (sOk dOk dataTar : Bool),
        App.auto_sync_files pacific keys key dryrun fs pn db = (.unauthorized, db) ∧
        App.ingest_json_file pacific keys fname key fs db =
          (⟨401, "unauthorized", none, none⟩, db) ∧
        fetch_data now keys key dryrun fsF sOk dOk = (.unauthorized, fsF) ∧
        App.sync_status_check keys key fs pn db = .unauthorized ∧
        App.download_data_tar keys key dataTar = .unauthorized) := by
  have hval : validate_client_key keys key = (pyUUIDok key && keys.contains key) := by
    unfold validate_client_key pyUUIDok
    cases uuid_UUID key with
    | ok v => simp [Except.toBool]
    | error e => simp [Except.toBool]
  refine ⟨hval, ?_, ?_⟩
  · intro h
    rw [hval, h]
    simp
  · intro h pacific dryrun fname fs pn db now fsF sOk dOk dataTar
    refine ⟨?_, ?_, ?_, ?_, ?_⟩
    · simp [App.auto_sync_files, h]
    · simp [App.ingest_json_file, h]
    · simp [fetch_data, h]
    · simp [App.sync_status_check, h]
    · simp [App.download_data_tar, h]

/-- Witness for C10: "not-a-uuid" is rejected even when it is itself
the configured allow-list entry, and the endpoints answer unauthorized
with untouched state. -/
theorem claim10_witness :
    validate_client_key ["not-a-uuid"] "not-a-uuid" = false ∧
    pyUUIDok "not-a-uuid" = false ∧
    App.auto_sync_files pacificC ["not-a-uuid"] "not-a-uuid" 0 [] [] [] =
      (.unauthorized, []) ∧
    App.download_data_tar ["not-a-uuid"] "not-a-uuid" true = .unauthorized := by
  have h := claim10_thm ["not-a-uuid"] "not-a-uuid"
  have hv : validate_client_key ["not-a-uuid"] "not-a-uuid" = false :=
    h.2.1 (by decide)
  have h3 := h.2.2 hv pacificC 0 "x.json" [] [] [] 0 ⟨.absent, .dabsent⟩ true true true
  exact ⟨hv, by decide, h3.1, h3.2.2.2.2⟩

end VSStats
